import Mathlib

/-!
Shallow embedding of `crate2nix/src/sources.rs` (module `sources`): management
of nix-fetched out-of-tree Cargo workspace sources.

Filesystem state, stderr output and the external `nix` process are modelled
explicitly: a `World` record carries the observable filesystem facts the module
consults, operations return a result together with the updated `World` and a
trace of `Event`s (one per `eprintln`/write/process-spawn site).  Machine
timestamps (`SystemTime`) are modelled as `Nat` (seconds since the epoch, with
`UNIX_EPOCH = 0`).  Fallible Rust functions returning `Result<_, Error>`
become `Except Err _`.
-/

deriving instance DecidableEq for Except

/-- Substring search helper: does the character list start with `pat`? -/
def charsStartWith : List Char → List Char → Bool
  | _, [] => true
  | [], _ :: _ => false
  | h :: t, p :: q => h == p && charsStartWith t q

/-- Substring search helper: does the character list contain `pat` as a
contiguous infix? -/
def charsContain : List Char → List Char → Bool
  | [], pat => pat.isEmpty
  | h :: t, pat => charsStartWith (h :: t) pat || charsContain t pat

/-- Embedding of Rust `str::contains(pat)` (literal-pattern case). -/
def strContains (s pat : String) : Bool := charsContain s.toList pat.toList

/-- `config::Source` as consumed by `sources.rs`: the CratesIo, Git and Nix
variants (the Nix variant's payload is opaque to this module, which only
matches on its tag via `matches!(s, config::Source::Nix \x7b .. \x7d)`). -/
inductive Source where
  | CratesIo (name : String) (version : String) (sha256 : String)
  | Git (url : String) (rev : String) (sha256 : Option String)
  | Nix
deriving DecidableEq, Repr

/-- The `matches!(s, config::Source::Nix \x7b .. \x7d)` test. -/
def isNixSource : Source → Bool
  | .Nix => true
  | _ => false

/-- One entry of the fetched-sources output directory, as observed by
`get_cargo_tomls`: its path string, whether it is a directory, and whether
`<path>/Cargo.toml` and `<path>/Cargo.lock` exist. -/
structure Entry where
  path : String
  isDir : Bool
  hasCargoToml : Bool
  hasCargoLock : Bool
deriving DecidableEq, Repr

/-- A child-process invocation as built by
`download_and_link_out_of_tree_sources`: program, working directory, and
argument vector. -/
structure ExecCall where
  program : String
  cwd : String
  args : List String
deriving DecidableEq, Repr

/-- The distinct failure conditions of the module, one constructor per `bail!`
/ `format_err!` site (`anyhow` error values carrying the interpolated data). -/
inductive Err where
  /-- `bail!("Did not find config at '\x7b\x7d'.", path)` -/
  | configNotFound (path : String)
  /-- `bail!("Cowardly refusing to overwrite sources.nix without generated marker.")` -/
  | refuseOverwrite
  /-- error propagated from `config::Config::read_from_or_default(..)?` -/
  | configReadFailed (msg : String)
  /-- error from `crate::command::run` on a non-zero exit or spawn failure,
  carrying the executor diagnostics -/
  | materializationFailed (diag : String)
  /-- `format_err!("while iterating/resolving entry in \x7b\x7d directory: \x7b\x7d", dir, e)`:
  the output directory or an entry in it could not be listed, wrapping the
  directory path and the underlying I/O error -/
  | directoryReadFailed (dir : String) (io : String)
deriving DecidableEq, Repr

/-- Trace events: one per observable side effect site in the module. -/
inductive Event where
  /-- `eprintln!("Fetching sources.")` before `self.fetch()` -/
  | fetchingSources
  /-- `SOURCES_NIX.write_to_file(..)`: the descriptor file was (re)written -/
  | wroteSourcesNix (lines : List (Option String))
  /-- `crate::command::run(..)` spawned the external build executor -/
  | ranExecutor (call : ExecCall)
  /-- `eprintln!("WARNING: No Cargo.toml found in \x7b\x7d...")` -/
  | warnNoCargoToml (path : String)
  /-- `eprintln!("WARNING: No Cargo.lock found in \x7b\x7d...")` -/
  | warnNoCargoLock (path : String)
deriving DecidableEq, Repr

/-- The filesystem / environment facts `sources.rs` consults.  A file's lines
are `List (Option String)` — `none` is a line that fails to read (the
`l.map(..).unwrap_or(false)` case of the marker scan); a whole-file or
directory read failure is the `Except.error` of the surrounding field,
carrying the I/O error text. -/
structure World where
  /-- `self.crate2nix_json_path` as a string -/
  configPath : String
  /-- `self.project_dir()`: parent of the config path -/
  projectDir : String
  /-- `self.crate2nix_json_path.exists()` -/
  configExists : Bool
  /-- result of `config::Config::read_from_or_default(&self.crate2nix_json_path)`,
  as the list of its source-map values -/
  configSources : Except String (List Source)
  /-- contents of `crate2nix-sources.nix` at its path; `none` = no such file -/
  sourcesNixLines : Option (List (Option String))
  /-- `symlink_metadata(symlink).modified()` — `none` = absent or unreadable -/
  symlinkMTime : Option Nat
  /-- `symlink_metadata(config).modified()` — `none` = unreadable -/
  configMTime : Option Nat
  /-- `SystemTime::now()` -/
  now : Nat
  /-- `read_dir` of the fetched-sources directory as it currently stands -/
  dirListing : Except String (List (Except String Entry))
  /-- `read_dir` of the fetched-sources directory as it would stand after a
  successful materialization by the external executor (opaque executor
  effect, supplied as an oracle) -/
  fetchedListing : Except String (List (Except String Entry))
  /-- exit status of the external executor: `ok` = exit code 0, `error d` =
  non-zero exit or spawn failure with diagnostics `d` -/
  execOutcome : Except String Unit
deriving DecidableEq, Repr

/-- `self.sources_nix()`: `project_dir.join("crate2nix-sources.nix")`. -/
def sourcesNixPath (w : World) : String := w.projectDir ++ "/crate2nix-sources.nix"

/-- `project_dir.join(FETCHED_SOURCES)` with `FETCHED_SOURCES = "crate2nix-sources"`. -/
def fetchedSourcesSymlink (w : World) : String := w.projectDir ++ "/crate2nix-sources"

/-- One line of the existing descriptor-file scan:
`l.map(|l| l.contains("@generated by crate2nix")).unwrap_or(false)`. -/
def markerLine (l : Option String) : Bool :=
  (l.map (fun s => strContains s "@generated by crate2nix")).getD false

/-- Modelled from the spec: the output of the external renderer
`crate::render::SOURCES_NIX.write_to_file` (module `render.rs`, outside this
module) — "a provenance marker comment identifying it as machine-generated,
plus a serialized rendering of all current SourceDeclarations"; the marker
matches the literal pattern `@generated by <tool-name>`. -/
def renderedSourcesNix : List (Option String) :=
  [ some "# This file was @generated by crate2nix 0.14.1 with the command:",
    some "#   \"generate\"",
    some "# See https://github.com/kolloch/crate2nix for more info.",
    some "rec ..." ]

/-- Result of an operation returning `Result<(), Error>` plus its effects. -/
structure RegenResult where
  result : Except Err Unit
  world : World
  events : List Event
deriving DecidableEq, Repr

/-- `FetchedSources::regenerate_sources_nix`. -/
def regenerate_sources_nix (w : World) : RegenResult :=
  if w.configExists then
    match w.sourcesNixLines with
    | some ls =>
      if ls.any markerLine then
        { result := .ok (),
          world := { w with sourcesNixLines := some renderedSourcesNix },
          events := [.wroteSourcesNix renderedSourcesNix] }
      else
        { result := .error .refuseOverwrite, world := w, events := [] }
    | none =>
      { result := .ok (),
        world := { w with sourcesNixLines := some renderedSourcesNix },
        events := [.wroteSourcesNix renderedSourcesNix] }
  else
    { result := .error (.configNotFound w.configPath), world := w, events := [] }

/-- Modelled from the spec: `crate::command::run` (module `command.rs`,
outside this module) — runs the prepared command, "exit code 0 required for
success"; a non-zero exit or spawn failure is fatal, wrapping the executor
diagnostics (`MaterializationFailed`). -/
def command_run (outcome : Except String Unit) : Except Err Unit :=
  match outcome with
  | .ok () => .ok ()
  | .error d => .error (.materializationFailed d)

/-- `download_and_link_out_of_tree_sources`: builds the `nix` invocation
(`Command::new("nix").current_dir(project_dir).args(..)`) and runs it via
`crate::command::run`; returns the call made and the outcome. -/
def download_and_link_out_of_tree_sources (project_dir sources_nix generated_sources_symlink nix_attr : String)
    (outcome : Except String Unit) : ExecCall × Except Err Unit :=
  let call : ExecCall :=
    { program := "nix",
      cwd := project_dir,
      args := ["--show-trace", "build", "-f", sources_nix, nix_attr, "-o",
               generated_sources_symlink] }
  (call, command_run outcome)

/-- `FetchedSources::fetch`: regenerate the descriptor file, then materialize
via the external executor.  On a successful materialization the output
directory listing becomes the (oracle-given) post-fetch listing. -/
def fetch (w : World) : RegenResult :=
  let r := regenerate_sources_nix w
  match r.result with
  | .error e => { result := .error e, world := r.world, events := r.events }
  | .ok () =>
    let p := download_and_link_out_of_tree_sources r.world.projectDir
      (sourcesNixPath r.world) (fetchedSourcesSymlink r.world) "fetchedSources"
      r.world.execOutcome
    match p.2 with
    | .error e =>
      { result := .error e, world := r.world, events := r.events ++ [.ranExecutor p.1] }
    | .ok () =>
      { result := .ok (),
        world := { r.world with dirListing := r.world.fetchedListing },
        events := r.events ++ [.ranExecutor p.1] }

/-- Body of the per-entry branch of the `get_cargo_tomls` loop: a directory
entry contributes its `Cargo.toml` path (when it is a directory) and a
warning per missing `Cargo.toml` / `Cargo.lock`. -/
def discoverEntry (e : Entry) : List String × List Event :=
  if e.isDir then
    ( [e.path ++ "/Cargo.toml"],
      (if e.hasCargoToml then [] else [Event.warnNoCargoToml e.path]) ++
      (if e.hasCargoLock then [] else [Event.warnNoCargoLock e.path]) )
  else ([], [])

/-- The directory-iteration loop of `get_cargo_tomls`: walks the entries in
order, aborting with `directoryReadFailed` at the first entry that fails to
resolve; warnings emitted before the abort remain emitted. -/
def discover (dir : String) : List (Except String Entry) → Except Err (List String) × List Event
  | [] => (.ok [], [])
  | .error e :: _ => (.error (.directoryReadFailed dir e), [])
  | .ok ent :: rest =>
    let c := discoverEntry ent
    let r := discover dir rest
    (r.1.map (fun l => c.1 ++ l), c.2 ++ r.2)

/-- The staleness check plus conditional fetch at the head of
`get_cargo_tomls`: `if has_nix_sources || outdated() \x7b self.fetch()? \x7d`. -/
def preFetch (w : World) (sources : List Source) : RegenResult :=
  let has_nix_sources := sources.any isNixSource
  let outdated : Bool :=
    decide ((w.symlinkMTime.getD 0) < (w.configMTime.getD w.now))
  if has_nix_sources || outdated then
    let f := fetch w
    { f with events := .fetchingSources :: f.events }
  else
    { result := .ok (), world := w, events := [] }

/-- Result of `get_cargo_tomls` plus its effects. -/
structure TomlsResult where
  result : Except Err (List String)
  world : World
  events : List Event
deriving DecidableEq, Repr

/-- `FetchedSources::get_cargo_tomls`: read the configuration, decide
staleness (fetching if stale), then list the output directory and collect
the per-member `Cargo.toml` paths. -/
def get_cargo_tomls (w : World) : TomlsResult :=
  match w.configSources with
  | .error e => { result := .error (.configReadFailed e), world := w, events := [] }
  | .ok sources =>
    let pre := preFetch w sources
    match pre.result with
    | .error e => { result := .error e, world := pre.world, events := pre.events }
    | .ok () =>
      match pre.world.dirListing with
      | .error e =>
        { result := .error (.directoryReadFailed (fetchedSourcesSymlink w) e),
          world := pre.world, events := pre.events }
      | .ok entries =>
        let d := discover (fetchedSourcesSymlink w) entries
        { result := d.1, world := pre.world, events := pre.events ++ d.2 }

/-- `crates_io_source(name, version)`: builds a prefetchable `CratesIoSource`
and completes the hash via `prefetchable.prefetch()?` — the prefetch outcome
(an external capability) is passed in; its error is propagated by `?`. -/
def crates_io_source (name version : String) (prefetchOutcome : Except String String) :
    Except String Source :=
  match prefetchOutcome with
  | .error e => .error e
  | .ok sha256 => .ok (.CratesIo name version sha256)

/-- `git_io_source(url, rev)`: builds a prefetchable `GitSource` and completes
the hash via `prefetchable.prefetch()?`. -/
def git_io_source (url rev : String) (prefetchOutcome : Except String String) :
    Except String Source :=
  match prefetchOutcome with
  | .error e => .error e
  | .ok sha256 => .ok (.Git url rev (some sha256))

/-- Is this event one of the two discovery warnings, about the given path? -/
def warnsAbout (p : String) : Event → Bool
  | .warnNoCargoToml q => q == p
  | .warnNoCargoLock q => q == p
  | _ => false

/-- Is this event a discovery warning at all? -/
def isWarnEvent : Event → Bool
  | .warnNoCargoToml _ => true
  | .warnNoCargoLock _ => true
  | _ => false

/-! ## Helper lemmas -/

lemma discoverEntry_events_warn (x : Entry) :
    ∀ ev ∈ (discoverEntry x).2, isWarnEvent ev = true := by
  intro ev hev
  rcases x with ⟨p, d, t, l⟩
  cases d <;> cases t <;> cases l <;> simp [discoverEntry] at hev <;>
    (rcases hev with rfl | rfl <;> rfl)

lemma discover_events_warn (d : String) (l : List (Except String Entry)) :
    ∀ ev ∈ (discover d l).2, isWarnEvent ev = true := by
  induction l with
  | nil => intro ev hev; simp [discover] at hev
  | cons hd tl ih =>
    intro ev hev
    match hd with
    | .error e => simp [discover] at hev
    | .ok ent =>
      simp only [discover, List.mem_append] at hev
      rcases hev with h | h
      · exact discoverEntry_events_warn ent ev h
      · exact ih ev h

lemma discover_no_fetching (d : String) (l : List (Except String Entry)) :
    Event.fetchingSources ∉ (discover d l).2 := by
  intro h
  have := discover_events_warn d l _ h
  simp [isWarnEvent] at this

/-! ## Sample worlds used by the witness theorems -/

/-- A project whose existing `crate2nix-sources.nix` carries the marker. -/
def wGen : World :=
  { configPath := "/p/crate2nix.json", projectDir := "/p", configExists := true,
    configSources := .ok [],
    sourcesNixLines := some [some "# x", some "# @generated by crate2nix 0.14"],
    symlinkMTime := some 10, configMTime := some 5, now := 100,
    dirListing := .ok [], fetchedListing := .ok [], execOutcome := .ok () }

/-- A project whose existing `crate2nix-sources.nix` lacks the marker. -/
def wRefuse : World :=
  { wGen with sourcesNixLines := some [some "hand-written nix file"] }

/-- A project with no configuration file. -/
def wNoConfig : World := { wGen with configExists := false }

/-! ## Claim theorems -/

/-- C1: with the config present and a file already at the descriptor path,
regeneration fails with `RefuseOverwrite` (leaving the world untouched) when
no line carries the `@generated by crate2nix` marker, and unconditionally
rewrites the file — whose new content again carries the marker — when some
line does. -/
theorem C1_marker_guard (w : World) (ls : List (Option String))
    (hc : w.configExists = true) (hs : w.sourcesNixLines = some ls) :
    (ls.any markerLine = false →
       (regenerate_sources_nix w).result = .error .refuseOverwrite ∧
       (regenerate_sources_nix w).world = w) ∧
    (ls.any markerLine = true →
       (regenerate_sources_nix w).result = .ok () ∧
       (regenerate_sources_nix w).world.sourcesNixLines = some renderedSourcesNix ∧
       renderedSourcesNix.any markerLine = true) := by
  constructor
  · intro hm
    simp [regenerate_sources_nix, hc, hs, hm]
  · intro hm
    refine ⟨?_, ?_, by decide⟩ <;> simp [regenerate_sources_nix, hc, hs, hm]

/-- Witness for C1: both branches of the marker guard at concrete worlds. -/
theorem C1_marker_guard_witness :
    ((regenerate_sources_nix wRefuse).result = .error .refuseOverwrite ∧
      (regenerate_sources_nix wRefuse).world = wRefuse) ∧
    ((regenerate_sources_nix wGen).result = .ok () ∧
      (regenerate_sources_nix wGen).world.sourcesNixLines = some renderedSourcesNix ∧
      renderedSourcesNix.any markerLine = true) :=
  ⟨(C1_marker_guard wRefuse [some "hand-written nix file"] rfl rfl).1 (by decide),
   (C1_marker_guard wGen [some "# x", some "# @generated by crate2nix 0.14"] rfl rfl).2
     (by decide)⟩

/-- C8: with no file at the configuration path, regeneration fails with
`ConfigNotFound` carrying that path, and nothing is written. -/
theorem C8_config_not_found (w : World) (hc : w.configExists = false) :
    (regenerate_sources_nix w).result = .error (.configNotFound w.configPath) ∧
    (regenerate_sources_nix w).world = w ∧
    (regenerate_sources_nix w).events = [] := by
  simp [regenerate_sources_nix, hc]

/-- Witness for C8 at a concrete world. -/
theorem C8_config_not_found_witness :
    (regenerate_sources_nix wNoConfig).result = .error (.configNotFound "/p/crate2nix.json") ∧
    (regenerate_sources_nix wNoConfig).world = wNoConfig ∧
    (regenerate_sources_nix wNoConfig).events = [] :=
  C8_config_not_found wNoConfig rfl

/-- C7: a successful prefetch with hash `h` completes the declaration without
altering its identity fields: `crates_io_source` keeps name and version,
`git_io_source` keeps url and rev, and both carry exactly `h`. -/
theorem C7_identity_preservation (name version url rev h : String) :
    crates_io_source name version (.ok h) = .ok (.CratesIo name version h) ∧
    git_io_source url rev (.ok h) = .ok (.Git url rev (some h)) :=
  ⟨rfl, rfl⟩

/-- Counterexample to C5 as stated: on prefetch failure the error is
propagated verbatim by `?` — the returned error equals the underlying
prefetch error and contains neither the name nor the version of the
declaration, so it does not wrap the declaration's identity. -/
theorem C5_counterexample :
    crates_io_source "foo" "1.2.0" (.error "network down") = .error "network down" ∧
    strContains "network down" "foo" = false ∧
    strContains "network down" "1.2.0" = false := by
  refine ⟨rfl, by decide, by decide⟩

/-- C5 (amended): on prefetch failure, both completion operations propagate
the underlying prefetch error unchanged (no identity is added to it), and no
`Source` value — hence none with a partial or guessed hash — is returned. -/
theorem C5_error_propagation (name version url rev e : String) :
    crates_io_source name version (.error e) = .error e ∧
    git_io_source url rev (.error e) = .error e :=
  ⟨rfl, rfl⟩

/-- C9: materialization builds exactly the invocation
`nix --show-trace build -f <descriptor> <attr> -o <symlink>` with the working
directory set to the project directory, and its outcome goes through
`command_run`: exit code 0 succeeds, a non-zero exit or spawn failure yields
`MaterializationFailed` carrying the diagnostics. -/
theorem C9_executor_invocation (project_dir sources_nix symlink attr : String)
    (outcome : Except String Unit) :
    (download_and_link_out_of_tree_sources project_dir sources_nix symlink attr outcome).1 =
      ⟨"nix", project_dir,
        ["--show-trace", "build", "-f", sources_nix, attr, "-o", symlink]⟩ ∧
    (download_and_link_out_of_tree_sources project_dir sources_nix symlink attr outcome).2 =
      command_run outcome ∧
    command_run (Except.ok ()) = Except.ok () ∧
    ∀ d : String, command_run (Except.error d) = Except.error (Err.materializationFailed d) :=
  ⟨rfl, rfl, rfl, fun _ => rfl⟩

lemma preFetch_not_stale (w : World) (srcs : List Source)
    (hn : srcs.any isNixSource = false)
    (ht : ¬ ((w.symlinkMTime.getD 0) < (w.configMTime.getD w.now))) :
    preFetch w srcs = { result := .ok (), world := w, events := [] } := by
  simp [preFetch, hn, ht]

lemma fetching_mem_of_stale (w : World) (srcs : List Source)
    (hc : w.configSources = .ok srcs)
    (h : (srcs.any isNixSource
          || decide ((w.symlinkMTime.getD 0) < (w.configMTime.getD w.now))) = true) :
    Event.fetchingSources ∈ (get_cargo_tomls w).events := by
  have hpre : preFetch w srcs =
      { result := (fetch w).result, world := (fetch w).world,
        events := .fetchingSources :: (fetch w).events } := by
    simp [preFetch, h]
  simp only [get_cargo_tomls, hc, hpre]
  rcases hres : (fetch w).result with e | ⟨⟩
  · simp
  · rcases hdl : (fetch w).world.dirListing with e | entries <;> simp [hdl]

/-- A stale-by-timestamp project (config newer than symlink). -/
def wStale : World := { wGen with configMTime := some 50 }

/-- A project declaring one Nix-variant source. -/
def wNix : World := { wGen with configSources := .ok [.Nix] }

/-- C2: with no Nix-variant declaration, `get_cargo_tomls` enters the fetch
cycle exactly when the symlink mtime (epoch `0` when absent or unreadable) is
strictly earlier than the configuration-file mtime (`now` when unreadable). -/
theorem C2_staleness_timestamp_rule (w : World) (srcs : List Source)
    (hc : w.configSources = .ok srcs)
    (hn : srcs.any isNixSource = false) :
    Event.fetchingSources ∈ (get_cargo_tomls w).events ↔
      (w.symlinkMTime.getD 0) < (w.configMTime.getD w.now) := by
  constructor
  · intro hmem
    by_contra hlt
    have hpre := preFetch_not_stale w srcs hn hlt
    simp only [get_cargo_tomls, hc, hpre] at hmem
    rcases hdl : w.dirListing with e | entries <;> simp [hdl] at hmem
    exact discover_no_fetching _ _ hmem
  · intro hlt
    exact fetching_mem_of_stale w srcs hc (by simp [hlt])

/-- Witness for C2 at a stale and a fresh concrete world. -/
theorem C2_staleness_timestamp_rule_witness :
    (Event.fetchingSources ∈ (get_cargo_tomls wStale).events ↔
      (wStale.symlinkMTime.getD 0) < (wStale.configMTime.getD wStale.now)) ∧
    (Event.fetchingSources ∈ (get_cargo_tomls wGen).events ↔
      (wGen.symlinkMTime.getD 0) < (wGen.configMTime.getD wGen.now)) :=
  ⟨C2_staleness_timestamp_rule wStale [] rfl rfl,
   C2_staleness_timestamp_rule wGen [] rfl rfl⟩

/-- C3: a configuration with at least one Nix-variant declaration makes
`get_cargo_tomls` enter the fetch cycle unconditionally, whatever the
timestamps. -/
theorem C3_nix_forces_fetch (w : World) (srcs : List Source)
    (hc : w.configSources = .ok srcs)
    (hn : srcs.any isNixSource = true) :
    Event.fetchingSources ∈ (get_cargo_tomls w).events :=
  fetching_mem_of_stale w srcs hc (by simp [hn])

/-- Witness for C3: a Nix source forces the fetch even though the symlink is
newer than the config. -/
theorem C3_nix_forces_fetch_witness :
    Event.fetchingSources ∈ (get_cargo_tomls wNix).events :=
  C3_nix_forces_fetch wNix [.Nix] rfl rfl

/-- A fresh (non-stale) project with a populated output directory. -/
def wFresh : World :=
  { wGen with
    dirListing := .ok [.ok ⟨"/p/crate2nix-sources/foo", true, true, true⟩,
                       .ok ⟨"/p/crate2nix-sources/bar", true, true, false⟩] }

/-- C6: when staleness is false (no Nix-variant declaration and the symlink
mtime is not strictly earlier than the config mtime), `get_cargo_tomls`
leaves the world untouched (descriptor file and symlink unchanged), emits
only discovery warnings (neither a descriptor write nor an executor run),
and its result is the discovery of the existing output directory. -/
theorem C6_fresh_frame (w : World) (srcs : List Source)
    (hc : w.configSources = .ok srcs)
    (hn : srcs.any isNixSource = false)
    (ht : ¬ ((w.symlinkMTime.getD 0) < (w.configMTime.getD w.now))) :
    (get_cargo_tomls w).world = w ∧
    (∀ ev ∈ (get_cargo_tomls w).events, isWarnEvent ev = true) ∧
    (∀ entries, w.dirListing = .ok entries →
       (get_cargo_tomls w).result = (discover (fetchedSourcesSymlink w) entries).1) := by
  have hpre := preFetch_not_stale w srcs hn ht
  simp only [get_cargo_tomls, hc, hpre]
  rcases hdl : w.dirListing with e | entries
  · refine ⟨rfl, by simp, ?_⟩
    intro entries' he
    cases he
  · refine ⟨rfl, ?_, ?_⟩
    · intro ev hev
      simp only [List.nil_append] at hev
      exact discover_events_warn _ _ ev hev
    · intro entries' he
      injection he with h
      subst h
      rfl

/-- Witness for C6 at a concrete fresh world with one missing lockfile. -/
theorem C6_fresh_frame_witness :
    (get_cargo_tomls wFresh).world = wFresh ∧
    (∀ ev ∈ (get_cargo_tomls wFresh).events, isWarnEvent ev = true) ∧
    (∀ entries, wFresh.dirListing = .ok entries →
       (get_cargo_tomls wFresh).result = (discover (fetchedSourcesSymlink wFresh) entries).1) :=
  C6_fresh_frame wFresh [] rfl rfl (by decide)

/-- A fresh project whose output directory cannot be listed. -/
def wDirErr : World := { wGen with dirListing := .error "io oops" }

/-- C10: a directory that cannot be listed, or an entry that cannot be
resolved, fails the operation with `directoryReadFailed` wrapping the
directory path and the underlying I/O error; entries that are not
directories contribute neither a result entry nor a warning. -/
theorem C10_directory_read_failed :
    (∀ (w : World) (srcs : List Source) (e : String),
       w.configSources = .ok srcs →
       (preFetch w srcs).result = .ok () →
       (preFetch w srcs).world.dirListing = .error e →
       (get_cargo_tomls w).result =
         .error (.directoryReadFailed (fetchedSourcesSymlink w) e)) ∧
    (∀ (d e : String) (rest : List (Except String Entry)),
       discover d (.error e :: rest) = (.error (.directoryReadFailed d e), [])) ∧
    (∀ (d : String) (ent : Entry) (rest : List (Except String Entry)),
       ent.isDir = false → discover d (.ok ent :: rest) = discover d rest) := by
  refine ⟨?_, fun d e rest => rfl, ?_⟩
  · intro w srcs e hc hpre hdl
    simp only [get_cargo_tomls, hc]
    rcases hr : preFetch w srcs with ⟨res, w', evs⟩
    rw [hr] at hpre hdl
    simp only at hpre hdl
    subst hpre
    simp only [hdl]
  · intro d ent rest hd
    have hde : discoverEntry ent = ([], []) := by
      simp [discoverEntry, hd]
    rcases h1 : discover d rest with ⟨r, evs⟩
    simp only [discover, hde, h1, List.nil_append]
    rcases r with e | v <;> simp [Except.map]

/-- Witness for C10: a concrete unlistable output directory. -/
theorem C10_directory_read_failed_witness :
    (get_cargo_tomls wDirErr).result =
      .error (.directoryReadFailed (fetchedSourcesSymlink wDirErr) "io oops") :=
  C10_directory_read_failed.1 wDirErr [] "io oops" rfl rfl rfl

lemma discover_map_ok (d : String) (es : List Entry) :
    discover d (es.map Except.ok) =
      (.ok (es.flatMap fun x => (discoverEntry x).1),
       es.flatMap fun x => (discoverEntry x).2) := by
  induction es with
  | nil => rfl
  | cons h t ih =>
    simp only [List.map_cons, discover, ih, List.flatMap_cons, Except.map]

lemma discoverEntry_warns_ne (x : Entry) (p : String) (hne : x.path ≠ p) :
    ((discoverEntry x).2).filter (warnsAbout p) = [] := by
  rcases x with ⟨q, dd, t, l⟩
  cases dd <;> cases t <;> cases l <;>
    simp_all [discoverEntry, warnsAbout]

lemma flat_warns_nil (p : String) (es : List Entry)
    (h : ∀ x ∈ es, x.path ≠ p) :
    ((es.flatMap fun x => (discoverEntry x).2).filter (warnsAbout p)) = [] := by
  induction es with
  | nil => rfl
  | cons hd tl ih =>
    simp only [List.flatMap_cons, List.filter_append]
    rw [discoverEntry_warns_ne hd p (h hd (by simp)),
        ih (fun x hx => h x (by simp [hx]))]
    rfl

lemma discoverEntry_warns_self (x : Entry)
    (hdir : x.isDir = true) (ht : x.hasCargoToml = true) :
    ((discoverEntry x).2).filter (warnsAbout x.path) =
      if x.hasCargoLock then [] else [.warnNoCargoLock x.path] := by
  rcases x with ⟨q, dd, t, l⟩
  cases l <;> simp_all [discoverEntry, warnsAbout]

lemma filtered_warns_eq (es : List Entry) (e : Entry)
    (huniq : es.filter (fun x => x.path == e.path) = [e]) :
    ((es.flatMap fun x => (discoverEntry x).2).filter (warnsAbout e.path)) =
      ((discoverEntry e).2).filter (warnsAbout e.path) := by
  induction es with
  | nil => cases huniq
  | cons hd tl ih =>
    rw [List.filter_cons] at huniq
    simp only [List.flatMap_cons, List.filter_append]
    by_cases hb : hd.path = e.path
    · rw [if_pos (by simp [hb])] at huniq
      injection huniq with h1 h2
      subst h1
      rw [flat_warns_nil hd.path tl
        (fun x hx => by
          have := List.filter_eq_nil_iff.mp h2 x hx
          simpa using this)]
      simp
    · rw [if_neg (by simp [hb])] at huniq
      rw [discoverEntry_warns_ne hd e.path hb, ih huniq]
      simp

/-- A two-member output directory: `foo` complete, `bar` missing its
`Cargo.lock`. -/
def esSample : List Entry :=
  [⟨"/p/crate2nix-sources/foo", true, true, true⟩,
   ⟨"/p/crate2nix-sources/bar", true, true, false⟩]

/-- C4: in a resolvable output directory, a member subdirectory (unique at
its path) with `Cargo.toml` but no `Cargo.lock` still contributes its
`Cargo.toml` path to the discovery result, and receives exactly one warning
(the missing-lockfile one); a member with both files present receives no
warning at all. -/
theorem C4_lenient_discovery (d : String) (es : List Entry) (e : Entry)
    (hdir : e.isDir = true) (htoml : e.hasCargoToml = true)
    (huniq : es.filter (fun x => x.path == e.path) = [e]) :
    (e.hasCargoLock = false →
       (discover d (es.map Except.ok)).1 =
         .ok (es.flatMap fun x => (discoverEntry x).1) ∧
       (e.path ++ "/Cargo.toml") ∈ (es.flatMap fun x => (discoverEntry x).1) ∧
       ((discover d (es.map Except.ok)).2.filter (warnsAbout e.path)) =
         [.warnNoCargoLock e.path]) ∧
    (e.hasCargoLock = true →
       ((discover d (es.map Except.ok)).2.filter (warnsAbout e.path)) = []) := by
  have hmem : e ∈ es :=
    List.mem_of_mem_filter (p := fun x => x.path == e.path)
      (by rw [huniq]; exact List.mem_singleton_self e)
  have hkey : ((discover d (es.map Except.ok)).2.filter (warnsAbout e.path)) =
      if e.hasCargoLock then [] else [.warnNoCargoLock e.path] := by
    rw [discover_map_ok]
    rw [filtered_warns_eq es e huniq]
    exact discoverEntry_warns_self e hdir htoml
  constructor
  · intro hl
    refine ⟨by rw [discover_map_ok], ?_, ?_⟩
    · exact List.mem_flatMap.mpr ⟨e, hmem, by simp [discoverEntry, hdir]⟩
    · rw [hkey, hl]
      rfl
  · intro hl
    rw [hkey, hl]
    rfl

/-- Witness for C4 at the concrete two-member directory: `bar` (no lockfile)
is included and warned about once; `foo` (complete) draws no warning. -/
theorem C4_lenient_discovery_witness :
    ((discover "/p/crate2nix-sources" (esSample.map Except.ok)).1 =
       .ok (esSample.flatMap fun x => (discoverEntry x).1) ∧
     ("/p/crate2nix-sources/bar" ++ "/Cargo.toml") ∈
       (esSample.flatMap fun x => (discoverEntry x).1) ∧
     ((discover "/p/crate2nix-sources" (esSample.map Except.ok)).2.filter
        (warnsAbout "/p/crate2nix-sources/bar")) =
       [.warnNoCargoLock "/p/crate2nix-sources/bar"]) ∧
    ((discover "/p/crate2nix-sources" (esSample.map Except.ok)).2.filter
       (warnsAbout "/p/crate2nix-sources/foo")) = [] :=
  ⟨(C4_lenient_discovery "/p/crate2nix-sources" esSample
      ⟨"/p/crate2nix-sources/bar", true, true, false⟩ rfl rfl (by decide)).1 rfl,
   (C4_lenient_discovery "/p/crate2nix-sources" esSample
      ⟨"/p/crate2nix-sources/foo", true, true, true⟩ rfl rfl (by decide)).2 rfl⟩
